import Mathlib

/-!
Shallow embedding of `openstack_dashboard/api/nova.py` (Horizon's nova API
facade) and proofs about its behavioral claims.

Python dictionaries whose values matter are modelled as association lists or
as functions `String → Option _`; exceptions are modelled with `Except` /
`Option`; the novaclient backend is modelled as an explicit function
parameter so that theorems can quantify over remote-service behavior.
-/

namespace NovaApi

/-! ## Absolute limits (`tenant_absolute_limits`, nova.py lines 777-792) -/

/-- One absolute limit as returned by `novaclient(request).limits.get(...)`:
a name and an integer value (negative values encode "unlimited" or the
upstream negative-`used` defect). -/
structure AbsoluteLimit where
  name : String
  value : Int
deriving DecidableEq, Repr

/-- The value stored in the resulting limits dictionary: either a finite
number or `float("inf")`. -/
inductive LimitValue where
  | finite (v : Int)
  | infinity
deriving DecidableEq, Repr

/-- Whether the first character list is a prefix of the second
(computable model of Python's `str.startswith` on the char level). -/
def chars_pfx : List Char → List Char → Bool
  | [], _ => true
  | _ :: _, [] => false
  | a :: as, b :: bs => a == b && chars_pfx as bs

/-- `limit.name.startswith('total')`-style test. -/
def name_starts (s p : String) : Bool := chars_pfx p.data s.data

/-- `limit.name.endswith('Used')`-style test. -/
def name_ends (s p : String) : Bool := chars_pfx p.data.reverse s.data.reverse

/-- The loop body of `tenant_absolute_limits`: the value written to
`limits_dict[limit.name]` for one limit. -/
def corrected_limit_value (l : AbsoluteLimit) : LimitValue :=
  if l.value < 0 then
    if name_starts l.name "total" && name_ends l.name "Used" then
      LimitValue.finite 0
    else
      LimitValue.infinity
  else
    LimitValue.finite l.value

/-- `tenant_absolute_limits` (nova.py 777-792): builds `limits_dict` by
iterating over the limits in order, each write overwriting any earlier
write to the same name.  The dictionary is modelled as a lookup function. -/
def tenant_absolute_limits (limits : List AbsoluteLimit) : String → Option LimitValue :=
  limits.foldl
    (fun d l => fun n => if n = l.name then some (corrected_limit_value l) else d n)
    (fun _ => none)

/-! ## Hypervisor wrapper (`Hypervisor.servers`, nova.py lines 123-138) -/

/-- A server entry inside a hypervisor's `servers` attribute (as used by
`evacuate_host`): a dict with `name` and `uuid` keys. -/
structure ServerInfo where
  name : String
  uuid : String
deriving DecidableEq, Repr

/-- The apidict wrapped by the `Hypervisor` class.  Attribute access
`self._apidict.servers` raises when the key is absent, which is modelled
by the `Option`: `none` means the attribute is not present. -/
structure HypervisorDict where
  servers : Option (List ServerInfo)
deriving DecidableEq, Repr

/-- The dashboard `Hypervisor` wrapper class (nova.py 123-138). -/
structure Hypervisor where
  _apidict : HypervisorDict
deriving DecidableEq, Repr

/-- The raising attribute access `self._apidict.servers` inside the
`Hypervisor.servers` property: `none` models the raised exception. -/
def apidict_servers_attr (d : HypervisorDict) : Option (List ServerInfo) :=
  d.servers

/-- The `Hypervisor.servers` property (nova.py 129-138): initialize
`servers = []`, try the attribute access, swallow any exception, return. -/
def Hypervisor.servers (h : Hypervisor) : List ServerInfo :=
  match apidict_servers_attr h._apidict with
  | some s => s
  | none => []

/-! ## Security-group reconciliation
(`SecurityGroupManager.update_instance_security_group`, nova.py 301-347) -/

/-- A security group as returned by `SecurityGroupManager.list` /
`list_by_instance`: only `id` and `name` are consulted by the
reconciliation code. -/
structure SecurityGroup where
  id : Nat
  name : String
deriving DecidableEq, Repr

/-- A `novaclient.exceptions.ClientException`: an error code and a message. -/
structure ClientErr where
  code : Nat
  message : String
deriving DecidableEq, Repr

/-- The errors `update_instance_security_group` can raise: a plain
`Exception` (swallowed by horizon, generic message shown) or a
`ClientException` (recognized as recoverable, message surfaced). -/
inductive UpdateErr where
  | generic (msg : String)
  | client (code : Nat) (msg : String)
deriving DecidableEq, Repr

/-- One call made during the apply phase of the reconciliation:
`servers.add_security_group` or `servers.remove_security_group`,
carrying the group name. -/
inductive SGOp where
  | add (group : String)
  | remove (group : String)
deriving DecidableEq, Repr

/-- `wanted_groups` (nova.py 307-308): names of the listed groups whose id
is among the requested security-group ids, as a set. -/
def wanted_groups (all_groups : List SecurityGroup) (new_security_group_ids : List Nat) :
    Finset String :=
  ((all_groups.filter (fun sg => sg.id ∈ new_security_group_ids)).map
    (fun sg => sg.name)).toFinset

/-- `current_group_names` (nova.py 316): names of the instance's current
groups, as a set. -/
def current_group_names (current_groups : List SecurityGroup) : Finset String :=
  (current_groups.map (fun sg => sg.name)).toFinset

/-- `groups_to_add = wanted_groups - current_group_names` (nova.py 318). -/
def groups_to_add (wanted current : Finset String) : Finset String :=
  wanted \ current

/-- `groups_to_remove = current_group_names - wanted_groups` (nova.py 319). -/
def groups_to_remove (wanted current : Finset String) : Finset String :=
  current \ wanted

/-- The sequence of backend calls issued by the two `for` loops
(nova.py 323-328): all additions, in the iteration order of the
`groups_to_add` set, followed by all removals, in the iteration order of
the `groups_to_remove` set.  The set iteration orders are parameters
(Python set iteration order is unspecified). -/
def reconcile_trace (addOrder remOrder : List String) : List SGOp :=
  addOrder.map SGOp.add ++ remOrder.map SGOp.remove

/-- The try-block of the apply phase (nova.py 322-328): execute the calls
in order, decrementing `num_groups_to_modify` after each success; on the
first `ClientException` stop and report the current counter together with
the underlying error.  `none` means every call succeeded. -/
def runOps (call : SGOp → Except ClientErr Unit) :
    List SGOp → Nat → Option (Nat × ClientErr)
  | [], _ => none
  | op :: rest, n =>
    match call op with
    | Except.ok _ => runOps call rest (n - 1)
    | Except.error e => some (n, e)

/-- The sanitized message raised on a mid-sequence failure
(nova.py 343-346). -/
def sg_sanitized_message (n : Nat) : String :=
  "Failed to modify " ++ toString n ++ " instance security groups"

/-- `SecurityGroupManager.update_instance_security_group` (nova.py 301-347).
The two fetches (`self.list()` and `self.list_by_instance(...)`) and the
per-call backend are parameters; `addOrder`/`remOrder` are the set
iteration orders of the two `for` loops. -/
def update_instance_security_group
    (fetch_all fetch_current : Except String (List SecurityGroup))
    (new_security_group_ids : List Nat) (instance_id : String)
    (addOrder remOrder : List String)
    (call : SGOp → Except ClientErr Unit) : Except UpdateErr Bool :=
  match fetch_all with
  | Except.error _ => Except.error (UpdateErr.generic "Couldn't get security group list.")
  | Except.ok all_groups =>
    match fetch_current with
    | Except.error _ =>
      Except.error (UpdateErr.generic
        ("Couldn't get current security group list for instance " ++ instance_id ++ "."))
    | Except.ok current_groups =>
      let wanted := wanted_groups all_groups new_security_group_ids
      let current := current_group_names current_groups
      let num_groups_to_modify :=
        (groups_to_add wanted current ∪ groups_to_remove wanted current).card
      match runOps call (reconcile_trace addOrder remOrder) num_groups_to_modify with
      | none => Except.ok true
      | some (n, e) => Except.error (UpdateErr.client e.code (sg_sanitized_message n))

/-- Projection of an `SGOp` onto the added group name. -/
def addedName : SGOp → Option String
  | SGOp.add g => some g
  | SGOp.remove _ => none

/-- Projection of an `SGOp` onto the removed group name. -/
def removedName : SGOp → Option String
  | SGOp.add _ => none
  | SGOp.remove g => some g

/-! ## `server_list` (nova.py 576-601): pagination and `search_opts` mutation -/

/-- A value stored in the `search_opts` dictionary. -/
inductive OptVal where
  | bool (b : Bool)
  | nat (n : Nat)
  | str (s : String)
deriving DecidableEq, Repr

/-- Python truthiness of a `search_opts` value. -/
def OptVal.truthy : OptVal → Bool
  | OptVal.bool b => b
  | OptVal.nat n => n != 0
  | OptVal.str s => s != ""

/-- The `search_opts` dictionary, modelled as an association list with at
most one entry per key (maintained by `dictInsert`/`dictErase`). -/
abbrev SearchOpts := List (String × OptVal)

/-- Dictionary lookup (`search_opts[k]` / `'k' in search_opts`). -/
def dictGet (d : SearchOpts) (k : String) : Option OptVal :=
  (d.find? (fun p => p.1 = k)).map (fun p => p.2)

/-- Dictionary key removal (`search_opts.pop(k)` discards the entry). -/
def dictErase (d : SearchOpts) (k : String) : SearchOpts :=
  d.filter (fun p => p.1 ≠ k)

/-- Dictionary assignment `search_opts[k] = v` (overwrites any old entry). -/
def dictInsert (d : SearchOpts) (k : String) (v : OptVal) : SearchOpts :=
  dictErase d k ++ [(k, v)]

/-- A raw server object returned by `c.servers.list(...)`. -/
structure NServer where
  name : String
  uuid : String
deriving DecidableEq, Repr

/-- The dashboard `Server` wrapper (`Server(s, request)`); the request is
irrelevant to the claims and elided. -/
structure DashboardServer where
  apiresource : NServer
deriving DecidableEq, Repr

/-- The `search_opts` preprocessing of `server_list` (nova.py 579-590):
pop `paginate`, set `limit` when paginating, then set `all_tenants` or
`project_id`.  Returns the final dictionary and the `paginate` flag. -/
def server_list_opts (tenant_id : String) (page_size : Nat)
    (search_opts : Option SearchOpts) (all_tenants : Bool) : SearchOpts × Bool :=
  let p :=
    match search_opts with
    | none => ([], false)
    | some o =>
      match dictGet o "paginate" with
      | none => (o, false)
      | some v =>
        let o := dictErase o "paginate"
        if v.truthy then
          (dictInsert o "limit" (OptVal.nat (page_size + 1)), true)
        else
          (o, false)
  let opts := p.1
  let opts :=
    if all_tenants then dictInsert opts "all_tenants" (OptVal.bool true)
    else dictInsert opts "project_id" (OptVal.str tenant_id)
  (opts, p.2)

/-- `server_list` (nova.py 576-601).  `backend` models
`c.servers.list(True, search_opts)`; `api_result_limit` models
`getattr(settings, 'API_RESULT_LIMIT', 1000)`.  Returns the (wrapped)
servers, the `has_more_data` flag, and the final state of the caller's
`search_opts` dictionary. -/
def server_list (tenant_id : String) (page_size api_result_limit : Nat)
    (search_opts : Option SearchOpts) (all_tenants : Bool)
    (backend : SearchOpts → List NServer) :
    (List DashboardServer × Bool) × SearchOpts :=
  let p := server_list_opts tenant_id page_size search_opts all_tenants
  let opts := p.1
  let paginate := p.2
  let servers := (backend opts).map DashboardServer.mk
  if paginate && servers.length > page_size then
    ((servers.dropLast, true), opts)
  else if paginate && servers.length == api_result_limit then
    ((servers, true), opts)
  else
    ((servers, false), opts)

/-! ## `novaclient` session-handle memoization (nova.py 432-447) -/

/-- The pieces of the Django request consulted by `novaclient`. -/
structure Request where
  username : String
  token_id : String
  tenant_id : String
  endpoint : String
deriving DecidableEq, Repr

/-- The constructed `nova_client.Client` handle.  `serial` models Python
object identity: each construction allocates a fresh serial, so two
handles are the same object exactly when their serials agree. -/
structure NovaClient where
  serial : Nat
  username : String
  api_key : String
  project_id : String
  auth_url : String
  auth_token : String
  management_url : String
deriving DecidableEq, Repr

/-- The body of `novaclient` (nova.py 438-447): construct a client from
the request's credentials and patch its token and management URL. -/
def mk_novaclient (r : Request) (serial : Nat) : NovaClient :=
  { serial := serial
    username := r.username
    api_key := r.token_id
    project_id := r.tenant_id
    auth_url := r.endpoint
    auth_token := r.token_id
    management_url := r.endpoint }

/-- The per-process memoization state: the cache of already-constructed
handles keyed by request, and the next identity serial. -/
structure MemoState where
  cache : List (Request × NovaClient)
  next_serial : Nat
deriving DecidableEq, Repr

/-- Modelled from the spec: the request-scoped `memoized` decorator
(`horizon.utils.memoized`, not under `src/`): "if none exists for this
context, construct one using credentials extracted from the context ...
and memoize it for the remainder of the context's lifetime".  A cache hit
returns the stored handle unchanged; a miss constructs a fresh handle
(fresh identity serial) and stores it. -/
def novaclient (r : Request) (st : MemoState) : NovaClient × MemoState :=
  match st.cache.find? (fun p => p.1 = r) with
  | some p => (p.2, st)
  | none =>
    let c := mk_novaclient r st.next_serial
    (c, ⟨(r, c) :: st.cache, st.next_serial + 1⟩)

/-! ## `evacuate_host` (nova.py 751-774) -/

/-- Formatting of one failed server (nova.py 766-767). -/
def evac_failure_message (s : ServerInfo) : String :=
  "Name: " ++ s.name ++ " ID: " ++ s.uuid

/-- The inner `for server in hyper.servers` loop of `evacuate_host`
(nova.py 759-768), threading the `response` accumulator and the last
error code. -/
def evac_server_loop (ev : String → Except ClientErr Unit) :
    List ServerInfo → List String → Option Nat → List String × Option Nat
  | [], response, err_code => (response, err_code)
  | s :: rest, response, err_code =>
    match ev s.uuid with
    | Except.ok _ => evac_server_loop ev rest response err_code
    | Except.error e =>
      evac_server_loop ev rest (response ++ [evac_failure_message s]) (some e.code)

/-- The outer `for hypervisor in hypervisors` loop (nova.py 756-768). -/
def evac_host_loop (ev : String → Except ClientErr Unit) :
    List HypervisorDict → List String → Option Nat → List String × Option Nat
  | [], response, err_code => (response, err_code)
  | h :: rest, response, err_code =>
    let p := evac_server_loop ev (Hypervisor.servers ⟨h⟩) response err_code
    evac_host_loop ev rest p.1 p.2

/-- `evacuate_host` (nova.py 751-774).  `hypervisors` models the result of
`hypervisors.search(host, True)`; `ev` models
`novaclient(request).servers.evacuate(uuid, target, on_shared_storage)`.
The final `if err_code:` is Python truthiness on the int code. -/
def evacuate_host (hypervisors : List HypervisorDict)
    (ev : String → Except ClientErr Unit) : Except ClientErr Bool :=
  let p := evac_host_loop ev hypervisors [] none
  match p.2 with
  | some c =>
    if c ≠ 0 then
      Except.error ⟨c, "Failed to evacuate instances: " ++ String.intercalate ", " p.1⟩
    else
      Except.ok true
  | none => Except.ok true

/-- All servers reported across the matching hypervisors, in loop order. -/
def allHyperServers (hypervisors : List HypervisorDict) : List ServerInfo :=
  (hypervisors.map (fun h => Hypervisor.servers ⟨h⟩)).flatten

/-- Whether one evacuation call failed. -/
def evacFails (ev : String → Except ClientErr Unit) (s : ServerInfo) : Bool :=
  match ev s.uuid with
  | Except.ok _ => false
  | Except.error _ => true

/-- The servers whose evacuation call fails, in loop order. -/
def evac_failed (hypervisors : List HypervisorDict)
    (ev : String → Except ClientErr Unit) : List ServerInfo :=
  (allHyperServers hypervisors).filter (evacFails ev)

/-- The error code of one evacuation result (`0` for success; only used on
failures). -/
def evacErrCode (ev : String → Except ClientErr Unit) (s : ServerInfo) : Nat :=
  match ev s.uuid with
  | Except.ok _ => 0
  | Except.error e => e.code

/-! ## Client-library call traces for `flavor_create` (nova.py 465-473) and
`aggregate_details_list` (nova.py 803-808) -/

/-- One call to an underlying novaclient method. -/
inductive ClientCall where
  | flavors_create (name : String) (memory vcpu disk : Nat) (flavorid : String)
      (ephemeral swap : Nat) (is_public : Bool)
  | flavors_get (flavor_id : Nat)
  | flavor_set_keys (flavor_id : Nat) (metadata : List (String × String))
  | aggregates_list
  | aggregates_get_details (aggregate_id : Nat)
deriving DecidableEq, Repr

/-- The client-library calls made by `flavor_extra_set` (nova.py 524-529):
`flavors.get(flavor_id)`, then `flavor.set_keys(metadata)` unless the
metadata dict is falsy (empty). -/
def flavor_extra_set_calls (flavor_id : Nat) (metadata : List (String × String)) :
    List ClientCall :=
  ClientCall.flavors_get flavor_id ::
    (if metadata.isEmpty then [] else [ClientCall.flavor_set_keys flavor_id metadata])

/-- The client-library calls made by `flavor_create` (nova.py 465-473):
`flavors.create(...)`, then — when a truthy (non-empty) metadata dict was
supplied — the calls of `flavor_extra_set` on the created flavor's id
(`created_id` models the id assigned by the remote service). -/
def flavor_create_calls (name : String) (memory vcpu disk : Nat) (flavorid : String)
    (ephemeral swap : Nat) (metadata : List (String × String)) (is_public : Bool)
    (created_id : Nat) : List ClientCall :=
  ClientCall.flavors_create name memory vcpu disk flavorid ephemeral swap is_public ::
    (if metadata.isEmpty then [] else flavor_extra_set_calls created_id metadata)

/-- The client-library calls made by `aggregate_details_list`
(nova.py 803-808): one `aggregates.list()` and then one
`aggregates.get_details(aggregate.id)` per returned aggregate
(`aggregate_ids` models the ids of the aggregates the list call returns). -/
def aggregate_details_list_calls (aggregate_ids : List Nat) : List ClientCall :=
  ClientCall.aggregates_list :: aggregate_ids.map ClientCall.aggregates_get_details

/-! ## Helper lemmas -/

/-- Writes for other names do not affect a lookup. -/
lemma tal_foldl_not_mem (limits : List AbsoluteLimit)
    (init : String → Option LimitValue) (n : String)
    (h : n ∉ limits.map AbsoluteLimit.name) :
    limits.foldl
      (fun d l => fun m => if m = l.name then some (corrected_limit_value l) else d m)
      init n = init n := by
  induction limits generalizing init with
  | nil => rfl
  | cons x rest ih =>
    simp only [List.map_cons, List.mem_cons, not_or] at h
    simp only [List.foldl_cons]
    rw [ih _ h.2]
    simp [h.1]

/-- With distinct limit names, the write loop maps each limit's name to
its corrected value whatever the initial dictionary was. -/
lemma tal_foldl_lookup (limits : List AbsoluteLimit)
    (init : String → Option LimitValue) (l : AbsoluteLimit)
    (hl : l ∈ limits) (hnd : (limits.map AbsoluteLimit.name).Nodup) :
    limits.foldl
      (fun d x => fun m => if m = x.name then some (corrected_limit_value x) else d m)
      init l.name = some (corrected_limit_value l) := by
  induction limits generalizing init with
  | nil => cases hl
  | cons x rest ih =>
    simp only [List.map_cons, List.nodup_cons] at hnd
    rcases List.mem_cons.mp hl with rfl | hmem
    · simp only [List.foldl_cons]
      rw [tal_foldl_not_mem _ _ _ hnd.1]
      simp
    · simp only [List.foldl_cons]
      exact ih _ hmem hnd.2

/-- With distinct limit names, the resulting dictionary maps each limit's
name to its corrected value. -/
lemma tenant_absolute_limits_lookup (limits : List AbsoluteLimit) (l : AbsoluteLimit)
    (hl : l ∈ limits) (hnd : (limits.map AbsoluteLimit.name).Nodup) :
    tenant_absolute_limits limits l.name = some (corrected_limit_value l) :=
  tal_foldl_lookup limits _ l hl hnd

/-! ## C10 -/

/-- C10: for every wrapped hypervisor object, `Hypervisor.servers` never
raises: when the underlying apidict has no `servers` attribute it returns
the empty list, and otherwise it returns the attribute's value. -/
theorem hypervisor_servers_never_raises (h : Hypervisor) :
    (apidict_servers_attr h._apidict = none → Hypervisor.servers h = []) ∧
    (∀ l, apidict_servers_attr h._apidict = some l → Hypervisor.servers h = l) := by
  constructor
  · intro hn
    simp [Hypervisor.servers, hn]
  · intro l hl
    simp [Hypervisor.servers, hl]

/-- Witness for C10 at a hypervisor with no `servers` attribute. -/
theorem hypervisor_servers_never_raises_witness :
    apidict_servers_attr (HypervisorDict.mk none) = none ∧
    Hypervisor.servers ⟨HypervisorDict.mk none⟩ = [] :=
  ⟨rfl, (hypervisor_servers_never_raises ⟨HypervisorDict.mk none⟩).1 rfl⟩

/-! ## C2 -/

/-- C2: for every absolute limit returned by the remote service (with
distinct limit names, as a dictionary assumes), `tenant_absolute_limits`
maps a negative `total*Used` counter to exactly zero, maps every other
negative limit value to positive infinity, and passes every non-negative
value through unchanged. -/
theorem tenant_absolute_limits_correction (limits : List AbsoluteLimit)
    (l : AbsoluteLimit) (hl : l ∈ limits)
    (hnd : (limits.map AbsoluteLimit.name).Nodup) :
    (l.value < 0 → (name_starts l.name "total" && name_ends l.name "Used") = true →
      tenant_absolute_limits limits l.name = some (LimitValue.finite 0)) ∧
    (l.value < 0 → (name_starts l.name "total" && name_ends l.name "Used") = false →
      tenant_absolute_limits limits l.name = some LimitValue.infinity) ∧
    (0 ≤ l.value →
      tenant_absolute_limits limits l.name = some (LimitValue.finite l.value)) := by
  have hlook := tenant_absolute_limits_lookup limits l hl hnd
  refine ⟨fun hneg hused => ?_, fun hneg hother => ?_, fun hpos => ?_⟩
  · rw [hlook, corrected_limit_value, if_pos hneg, hused]
    simp
  · rw [hlook, corrected_limit_value, if_pos hneg, hother]
    simp
  · rw [hlook, corrected_limit_value, if_neg (by omega)]

/-- Witness for C2: a negative used counter in a concrete limits list is
mapped to zero. -/
theorem tenant_absolute_limits_correction_witness :
    (AbsoluteLimit.mk "totalCoresUsed" (-5)) ∈
        [AbsoluteLimit.mk "totalCoresUsed" (-5), AbsoluteLimit.mk "maxTotalCores" (-1),
         AbsoluteLimit.mk "totalRAMUsed" 256] ∧
    (([AbsoluteLimit.mk "totalCoresUsed" (-5), AbsoluteLimit.mk "maxTotalCores" (-1),
       AbsoluteLimit.mk "totalRAMUsed" 256].map AbsoluteLimit.name).Nodup) ∧
    ((-5 : Int) < 0 ∧
      tenant_absolute_limits
        [AbsoluteLimit.mk "totalCoresUsed" (-5), AbsoluteLimit.mk "maxTotalCores" (-1),
         AbsoluteLimit.mk "totalRAMUsed" 256] "totalCoresUsed"
        = some (LimitValue.finite 0)) :=
  ⟨by decide, by decide,
    by decide,
    (tenant_absolute_limits_correction
        [AbsoluteLimit.mk "totalCoresUsed" (-5), AbsoluteLimit.mk "maxTotalCores" (-1),
         AbsoluteLimit.mk "totalRAMUsed" 256]
        (AbsoluteLimit.mk "totalCoresUsed" (-5))
        (by decide) (by decide)).1 (by decide) (by decide)⟩

/-! ## C5 -/

/-- C5: within the same request context, a second call to `novaclient`
returns the identical memoized handle (same identity serial) and leaves
the memoization state untouched: the handle is constructed on the first
call and reused afterwards. -/
theorem novaclient_memoized_identity (r : Request) (st : MemoState) :
    (novaclient r ((novaclient r st).2)).1 = (novaclient r st).1 ∧
    (novaclient r ((novaclient r st).2)).2 = (novaclient r st).2 ∧
    (novaclient r ((novaclient r st).2)).1.serial = (novaclient r st).1.serial := by
  cases hfind : st.cache.find? (fun p => decide (p.1 = r)) with
  | none =>
    simp [novaclient, hfind, List.find?]
  | some p =>
    simp [novaclient, hfind]

/-! ## C8 -/

/-- C8 counterexample: `aggregate_details_list` with two aggregates makes
three client-library calls, not exactly one. -/
theorem aggregate_details_list_not_single_call :
    (aggregate_details_list_calls [1, 2]).length ≠ 1 := by decide

/-- C8 (amended): `flavor_create` makes one client-library call when no
(truthy) metadata is supplied and three (create, get, set_keys) otherwise;
`aggregate_details_list` makes one `aggregates.list` call plus one
`aggregates.get_details` call per returned aggregate. -/
theorem facade_call_counts (name : String) (memory vcpu disk : Nat)
    (flavorid : String) (ephemeral swap : Nat) (metadata : List (String × String))
    (is_public : Bool) (created_id : Nat) (aggregate_ids : List Nat) :
    (flavor_create_calls name memory vcpu disk flavorid ephemeral swap metadata
        is_public created_id).length = 1 + (if metadata.isEmpty then 0 else 2) ∧
    (aggregate_details_list_calls aggregate_ids).length = 1 + aggregate_ids.length := by
  constructor
  · simp only [flavor_create_calls, flavor_extra_set_calls]
    by_cases h : metadata.isEmpty <;> simp [h]
  · simp [aggregate_details_list_calls]
    omega

/-! ## C1 -/

/-- The additions in the trace are exactly the add-iteration order. -/
lemma filterMap_addedName_adds (as : List String) :
    (as.map SGOp.add).filterMap addedName = as := by
  induction as with
  | nil => rfl
  | cons a rest ih => simp [addedName, ih]

/-- No additions come from the removal part of the trace. -/
lemma filterMap_addedName_removes (rs : List String) :
    (rs.map SGOp.remove).filterMap addedName = [] := by
  induction rs with
  | nil => rfl
  | cons r rest ih => simp [addedName, ih]

/-- No removals come from the addition part of the trace. -/
lemma filterMap_removedName_adds (as : List String) :
    (as.map SGOp.add).filterMap removedName = [] := by
  induction as with
  | nil => rfl
  | cons a rest ih => simp [removedName, ih]

/-- The removals in the trace are exactly the remove-iteration order. -/
lemma filterMap_removedName_removes (rs : List String) :
    (rs.map SGOp.remove).filterMap removedName = rs := by
  induction rs with
  | nil => rfl
  | cons r rest ih => simp [removedName, ih]

/-- C1: for whatever iteration orders the two set loops take, the backend
call trace of `update_instance_security_group` adds exactly the desired
group names minus the current ones, removes exactly the current names
minus the desired ones, and performs every addition before any removal. -/
theorem update_instance_security_group_symmetric_difference
    (all_groups current_groups : List SecurityGroup) (new_ids : List Nat)
    (addOrder remOrder : List String)
    (hadd : addOrder.toFinset =
      groups_to_add (wanted_groups all_groups new_ids) (current_group_names current_groups))
    (hrem : remOrder.toFinset =
      groups_to_remove (wanted_groups all_groups new_ids) (current_group_names current_groups)) :
    ((reconcile_trace addOrder remOrder).filterMap addedName).toFinset =
        wanted_groups all_groups new_ids \ current_group_names current_groups ∧
    ((reconcile_trace addOrder remOrder).filterMap removedName).toFinset =
        current_group_names current_groups \ wanted_groups all_groups new_ids ∧
    ∃ adds removals, reconcile_trace addOrder remOrder = adds ++ removals ∧
      (∀ op ∈ adds, ∃ g, op = SGOp.add g) ∧
      (∀ op ∈ removals, ∃ g, op = SGOp.remove g) := by
  refine ⟨?_, ?_, addOrder.map SGOp.add, remOrder.map SGOp.remove, rfl, ?_, ?_⟩
  · rw [reconcile_trace, List.filterMap_append, filterMap_addedName_adds,
      filterMap_addedName_removes, List.append_nil]
    exact hadd
  · rw [reconcile_trace, List.filterMap_append, filterMap_removedName_adds,
      filterMap_removedName_removes, List.nil_append]
    exact hrem
  · intro op hop
    rcases List.mem_map.mp hop with ⟨g, _, rfl⟩
    exact ⟨g, rfl⟩
  · intro op hop
    rcases List.mem_map.mp hop with ⟨g, _, rfl⟩
    exact ⟨g, rfl⟩

/-- Witness for C1 at the spec's example: desired `{A, B}` (ids 1 and 2 of
groups A, B, C), current `{B, C}`: exactly `{A}` is added and exactly
`{C}` is removed. -/
theorem update_instance_security_group_symmetric_difference_witness :
    (["A"].toFinset =
      groups_to_add
        (wanted_groups [⟨1, "A"⟩, ⟨2, "B"⟩, ⟨3, "C"⟩] [1, 2])
        (current_group_names [⟨2, "B"⟩, ⟨3, "C"⟩])) ∧
    (["C"].toFinset =
      groups_to_remove
        (wanted_groups [⟨1, "A"⟩, ⟨2, "B"⟩, ⟨3, "C"⟩] [1, 2])
        (current_group_names [⟨2, "B"⟩, ⟨3, "C"⟩])) ∧
    (((reconcile_trace ["A"] ["C"]).filterMap addedName).toFinset =
        wanted_groups [⟨1, "A"⟩, ⟨2, "B"⟩, ⟨3, "C"⟩] [1, 2] \
          current_group_names [⟨2, "B"⟩, ⟨3, "C"⟩] ∧
      ((reconcile_trace ["A"] ["C"]).filterMap removedName).toFinset =
        current_group_names [⟨2, "B"⟩, ⟨3, "C"⟩] \
          wanted_groups [⟨1, "A"⟩, ⟨2, "B"⟩, ⟨3, "C"⟩] [1, 2] ∧
      ∃ adds removals, reconcile_trace ["A"] ["C"] = adds ++ removals ∧
        (∀ op ∈ adds, ∃ g, op = SGOp.add g) ∧
        (∀ op ∈ removals, ∃ g, op = SGOp.remove g)) :=
  ⟨by decide, by decide,
    update_instance_security_group_symmetric_difference
      [⟨1, "A"⟩, ⟨2, "B"⟩, ⟨3, "C"⟩] [⟨2, "B"⟩, ⟨3, "C"⟩] [1, 2] ["A"] ["C"]
      (by decide) (by decide)⟩

/-! ## C4 -/

/-- `runOps`: when the first `k` calls succeed and call `k` fails with
error `e`, the loop stops with the counter decremented `k` times. -/
lemma runOps_first_error (call : SGOp → Except ClientErr Unit) (e : ClientErr) :
    ∀ (ops : List SGOp) (n k : Nat) (hk : k < ops.length),
      (∀ j (hj : j < k), call (ops.get ⟨j, hj.trans hk⟩) = Except.ok ()) →
      call (ops.get ⟨k, hk⟩) = Except.error e →
      runOps call ops n = some (n - k, e)
  | [], _, k, hk, _, _ => absurd hk (by simp)
  | op :: rest, n, 0, hk, _, hfail => by
    simp only [List.get] at hfail
    simp [runOps, hfail]
  | op :: rest, n, k + 1, hk, hpre, hfail => by
    have h0 : call op = Except.ok () := hpre 0 (Nat.succ_pos k)
    have hk' : k < rest.length := Nat.lt_of_succ_lt_succ hk
    have hpre' : ∀ j (hj : j < k), call (rest.get ⟨j, hj.trans hk'⟩) = Except.ok () :=
      fun j hj => hpre (j + 1) (Nat.succ_lt_succ hj)
    have hfail' : call (rest.get ⟨k, hk'⟩) = Except.error e := hfail
    have := runOps_first_error call e rest (n - 1) k hk' hpre' hfail'
    simp only [runOps, h0]
    rw [this, Nat.sub_sub, Nat.add_comm]

/-- The initial counter `len(groups_to_add | groups_to_remove)` equals the
length of the backend call trace. -/
lemma reconcile_total (addOrder remOrder : List String) (w c : Finset String)
    (hand : addOrder.Nodup) (hrnd : remOrder.Nodup)
    (hadd : addOrder.toFinset = groups_to_add w c)
    (hrem : remOrder.toFinset = groups_to_remove w c) :
    (groups_to_add w c ∪ groups_to_remove w c).card =
      (reconcile_trace addOrder remOrder).length := by
  have hdisj : Disjoint (groups_to_add w c) (groups_to_remove w c) :=
    disjoint_sdiff_sdiff
  rw [Finset.card_union_of_disjoint hdisj, ← hadd, ← hrem,
    List.toFinset_card_of_nodup hand, List.toFinset_card_of_nodup hrnd]
  simp [reconcile_trace]

/-- C4: when a backend call fails mid-sequence with a
`ClientException`, `update_instance_security_group` re-raises a
`ClientException` carrying the original error code whose message is the
sanitized template mentioning only the count of unprocessed group
changes (the `k` already-applied changes are not counted). -/
theorem update_sg_error_sanitized
    (all_groups current_groups : List SecurityGroup) (new_ids : List Nat)
    (instance_id : String) (addOrder remOrder : List String)
    (call : SGOp → Except ClientErr Unit)
    (hand : addOrder.Nodup) (hrnd : remOrder.Nodup)
    (hadd : addOrder.toFinset =
      groups_to_add (wanted_groups all_groups new_ids) (current_group_names current_groups))
    (hrem : remOrder.toFinset =
      groups_to_remove (wanted_groups all_groups new_ids) (current_group_names current_groups))
    (k : Nat) (hk : k < (reconcile_trace addOrder remOrder).length)
    (hpre : ∀ j (hj : j < k),
      call ((reconcile_trace addOrder remOrder).get ⟨j, hj.trans hk⟩) = Except.ok ())
    (e : ClientErr)
    (hfail : call ((reconcile_trace addOrder remOrder).get ⟨k, hk⟩) = Except.error e) :
    update_instance_security_group (Except.ok all_groups) (Except.ok current_groups)
        new_ids instance_id addOrder remOrder call =
      Except.error (UpdateErr.client e.code
        (sg_sanitized_message ((reconcile_trace addOrder remOrder).length - k))) := by
  have hrun := runOps_first_error call e (reconcile_trace addOrder remOrder)
    ((groups_to_add (wanted_groups all_groups new_ids) (current_group_names current_groups) ∪
      groups_to_remove (wanted_groups all_groups new_ids)
        (current_group_names current_groups)).card)
    k hk hpre hfail
  have htot := reconcile_total addOrder remOrder
    (wanted_groups all_groups new_ids) (current_group_names current_groups)
    hand hrnd hadd hrem
  simp only [update_instance_security_group]
  rw [hrun, htot]

/-- Witness for C4: with desired `{A, B}` and current `{B, C}`, the add of
`A` succeeds and the removal of `C` fails with code 404; the surfaced
error is a client error with code 404 and the count-only message. -/
theorem update_sg_error_sanitized_witness :
    (["A"] : List String).Nodup ∧
    (["C"] : List String).Nodup ∧
    (1 < (reconcile_trace ["A"] ["C"]).length) ∧
    update_instance_security_group
        (Except.ok [⟨1, "A"⟩, ⟨2, "B"⟩, ⟨3, "C"⟩]) (Except.ok [⟨2, "B"⟩, ⟨3, "C"⟩])
        [1, 2] "inst-7" ["A"] ["C"]
        (fun op => match op with
          | SGOp.remove "C" => Except.error ⟨404, "raw group name C, tenant t-42"⟩
          | _ => Except.ok ()) =
      Except.error (UpdateErr.client 404 (sg_sanitized_message 1)) :=
  ⟨by decide, by decide, by decide,
    update_sg_error_sanitized
      [⟨1, "A"⟩, ⟨2, "B"⟩, ⟨3, "C"⟩] [⟨2, "B"⟩, ⟨3, "C"⟩] [1, 2] "inst-7" ["A"] ["C"]
      (fun op => match op with
        | SGOp.remove "C" => Except.error ⟨404, "raw group name C, tenant t-42"⟩
        | _ => Except.ok ())
      (by decide) (by decide) (by decide) (by decide) 1 (by decide)
      (fun j hj => by interval_cases j; rfl)
      ⟨404, "raw group name C, tenant t-42"⟩ rfl⟩

/-! ## Dictionary lemmas -/

/-- Lookup distributes over dictionary concatenation. -/
lemma dictGet_append (l₁ l₂ : SearchOpts) (k : String) :
    dictGet (l₁ ++ l₂) k = (dictGet l₁ k).orElse (fun _ => dictGet l₂ k) := by
  induction l₁ with
  | nil => simp [dictGet, Option.orElse]
  | cons p rest ih =>
    by_cases h : p.1 = k
    · simp [dictGet, List.find?, h, Option.orElse]
    · simp only [List.cons_append]
      simpa [dictGet, List.find?, h] using ih

/-- Erasing a key removes it from lookups. -/
lemma dictGet_erase_self (d : SearchOpts) (k : String) :
    dictGet (dictErase d k) k = none := by
  induction d with
  | nil => rfl
  | cons p rest ih =>
    by_cases h : p.1 = k
    · rw [dictErase, List.filter_cons, if_neg (by simp [h])]
      exact ih
    · rw [dictErase, List.filter_cons, if_pos (by simp [h])]
      rw [dictGet, List.find?]
      simp only [h, decide_eq_true_eq, if_neg h]
      exact ih

/-- Erasing one key leaves other keys' lookups unchanged. -/
lemma dictGet_erase_of_ne (d : SearchOpts) (k k' : String) (h : k' ≠ k) :
    dictGet (dictErase d k) k' = dictGet d k' := by
  induction d with
  | nil => rfl
  | cons p rest ih =>
    by_cases hp : p.1 = k
    · have hp' : p.1 ≠ k' := by
        intro hk
        exact h (hk ▸ hp)
      simpa [dictGet, dictErase, List.filter_cons, List.find?, hp, hp', Ne.symm h, h]
        using ih
    · by_cases hq : p.1 = k'
      · simp [dictGet, dictErase, List.filter_cons, List.find?, hp, hq, Ne.symm h, h]
      · simpa [dictGet, dictErase, List.filter_cons, List.find?, hp, hq, Ne.symm h, h]
          using ih

/-- Assigning a key makes its lookup return the assigned value. -/
lemma dictGet_insert_self (d : SearchOpts) (k : String) (v : OptVal) :
    dictGet (dictInsert d k v) k = some v := by
  rw [dictInsert, dictGet_append, dictGet_erase_self]
  simp [dictGet, List.find?, Option.orElse]

/-- Assigning one key leaves other keys' lookups unchanged. -/
lemma dictGet_insert_of_ne (d : SearchOpts) (k k' : String) (v : OptVal) (h : k' ≠ k) :
    dictGet (dictInsert d k v) k' = dictGet d k' := by
  rw [dictInsert, dictGet_append, dictGet_erase_of_ne d k k' h]
  have : dictGet [(k, v)] k' = none := by
    simp [dictGet, List.find?, Ne.symm h]
  rw [this]
  cases dictGet d k' <;> simp [Option.orElse]

/-- The final `search_opts` returned by `server_list` is the one produced
by the preprocessing, whatever pagination branch is taken. -/
lemma server_list_snd (tenant_id : String) (page_size api_result_limit : Nat)
    (search_opts : Option SearchOpts) (all_tenants : Bool)
    (backend : SearchOpts → List NServer) :
    (server_list tenant_id page_size api_result_limit search_opts all_tenants backend).2 =
      (server_list_opts tenant_id page_size search_opts all_tenants).1 := by
  simp only [server_list]
  split
  · rfl
  · split
    · rfl
    · rfl

/-- Preprocessing with a `paginate = True` entry: the `paginate` key is
popped, `limit` is set to `page_size + 1`, the tenant key is set, and the
paginate flag is reported true. -/
lemma server_list_opts_paginate_true (tenant_id : String) (page_size : Nat)
    (opts : SearchOpts) (all_tenants : Bool)
    (hpag : dictGet opts "paginate" = some (OptVal.bool true)) :
    server_list_opts tenant_id page_size (some opts) all_tenants =
      (if all_tenants then
        dictInsert (dictInsert (dictErase opts "paginate") "limit"
          (OptVal.nat (page_size + 1))) "all_tenants" (OptVal.bool true)
      else
        dictInsert (dictInsert (dictErase opts "paginate") "limit"
          (OptVal.nat (page_size + 1))) "project_id" (OptVal.str tenant_id),
       true) := by
  simp [server_list_opts, hpag, OptVal.truthy]

/-! ## C3 -/

/-- C3 counterexample: with page size 2 and `API_RESULT_LIMIT = 2`, a
paginated `server_list` whose underlying list returns 2 rows (at most the
page size) reports the more-data flag as `true`, not `false` as the claim
states; both rows are returned. -/
theorem server_list_flag_at_cap_counterexample :
    ((server_list "tenant-1" 2 2 (some [("paginate", OptVal.bool true)]) false
        (fun _ => [⟨"srv-a", "u1"⟩, ⟨"srv-b", "u2"⟩])).1.2 = true) ∧
    ((server_list "tenant-1" 2 2 (some [("paginate", OptVal.bool true)]) false
        (fun _ => [⟨"srv-a", "u1"⟩, ⟨"srv-b", "u2"⟩])).1.1.length = 2) := by
  constructor
  · rfl
  · rfl

/-- C3 (amended): for a paginated `server_list` with page size `N`: if the
underlying list returns `N + 1` rows, the result is exactly the first `N`
servers with the more-data flag true; if it returns at most `N` rows, all
returned servers are kept and the more-data flag is false unless the row
count equals the configured `API_RESULT_LIMIT` cap, in which case it is
true. -/
theorem server_list_pagination (tenant_id : String) (page_size api_result_limit : Nat)
    (opts : SearchOpts) (all_tenants : Bool) (backend : SearchOpts → List NServer)
    (raw : List NServer)
    (hpag : dictGet opts "paginate" = some (OptVal.bool true))
    (hraw : backend (server_list_opts tenant_id page_size (some opts) all_tenants).1 = raw) :
    (raw.length = page_size + 1 →
      (server_list tenant_id page_size api_result_limit (some opts) all_tenants
          backend).1 =
        ((raw.map DashboardServer.mk).take page_size, true)) ∧
    (raw.length ≤ page_size →
      (server_list tenant_id page_size api_result_limit (some opts) all_tenants
          backend).1 =
        (raw.map DashboardServer.mk, raw.length == api_result_limit)) := by
  have hp2 : (server_list_opts tenant_id page_size (some opts) all_tenants).2 = true := by
    rw [server_list_opts_paginate_true tenant_id page_size opts all_tenants hpag]
  constructor
  · intro hlen
    simp only [server_list, hraw, hp2, List.length_map, Bool.true_and]
    rw [if_pos (by simp [hlen])]
    rw [List.dropLast_eq_take, List.length_map, hlen]
    simp
  · intro hlen
    simp only [server_list, hraw, hp2, List.length_map, Bool.true_and]
    rw [if_neg (by simp; omega)]
    by_cases hcap : raw.length = api_result_limit
    · rw [if_pos (by simp [hcap])]
      simp [hcap]
    · rw [if_neg (by simp [hcap])]
      simp [hcap]

/-- Witness for C3 (amended): page size 2, three rows returned: the first
two rows are kept and the flag is true; and with two rows (cap 1000) both
rows are kept with the flag false. -/
theorem server_list_pagination_witness :
    dictGet [("paginate", OptVal.bool true)] "paginate" = some (OptVal.bool true) ∧
    ((fun _ => [⟨"a", "u1"⟩, ⟨"b", "u2"⟩, ⟨"c", "u3"⟩] : SearchOpts → List NServer)
        (server_list_opts "t-1" 2 (some [("paginate", OptVal.bool true)]) false).1 =
      [⟨"a", "u1"⟩, ⟨"b", "u2"⟩, ⟨"c", "u3"⟩]) ∧
    ([(⟨"a", "u1"⟩ : NServer), ⟨"b", "u2"⟩, ⟨"c", "u3"⟩].length = 2 + 1 →
      (server_list "t-1" 2 1000 (some [("paginate", OptVal.bool true)]) false
          (fun _ => [⟨"a", "u1"⟩, ⟨"b", "u2"⟩, ⟨"c", "u3"⟩])).1 =
        (([(⟨"a", "u1"⟩ : NServer), ⟨"b", "u2"⟩, ⟨"c", "u3"⟩].map DashboardServer.mk).take 2,
          true)) :=
  ⟨by decide, rfl,
    (server_list_pagination "t-1" 2 1000 [("paginate", OptVal.bool true)] false
      (fun _ => [⟨"a", "u1"⟩, ⟨"b", "u2"⟩, ⟨"c", "u3"⟩])
      [⟨"a", "u1"⟩, ⟨"b", "u2"⟩, ⟨"c", "u3"⟩] (by decide) rfl).1⟩

/-! ## C6 -/

/-- C6 counterexample: with page size 3 and `API_RESULT_LIMIT = 3`, a
paginated `server_list` whose underlying list returns exactly the cap (3
rows) keeps all three rows — the overflow row is not trimmed — while the
flag is signalled true. -/
theorem server_list_cap_not_trimmed_counterexample :
    ((server_list "tenant-2" 3 3 (some [("paginate", OptVal.bool true)]) false
        (fun _ => [⟨"s1", "v1"⟩, ⟨"s2", "v2"⟩, ⟨"s3", "v3"⟩])).1.1.length = 3) ∧
    ((server_list "tenant-2" 3 3 (some [("paginate", OptVal.bool true)]) false
        (fun _ => [⟨"s1", "v1"⟩, ⟨"s2", "v2"⟩, ⟨"s3", "v3"⟩])).1.2 = true) := by
  constructor
  · rfl
  · rfl

/-- C6 (amended): whenever a paginated `server_list` receives exactly
`API_RESULT_LIMIT` rows from the underlying list, the more-data flag is
signalled true; the overflow row is trimmed only when the row count also
exceeds the page size — when the cap is at most the page size all rows,
sentinel included, are returned. -/
theorem server_list_cap_signals_more (tenant_id : String)
    (page_size api_result_limit : Nat) (opts : SearchOpts) (all_tenants : Bool)
    (backend : SearchOpts → List NServer) (raw : List NServer)
    (hpag : dictGet opts "paginate" = some (OptVal.bool true))
    (hraw : backend (server_list_opts tenant_id page_size (some opts) all_tenants).1 = raw)
    (hcap : raw.length = api_result_limit) :
    ((server_list tenant_id page_size api_result_limit (some opts) all_tenants
        backend).1.2 = true) ∧
    (page_size < raw.length →
      (server_list tenant_id page_size api_result_limit (some opts) all_tenants
          backend).1.1 = (raw.map DashboardServer.mk).dropLast) ∧
    (raw.length ≤ page_size →
      (server_list tenant_id page_size api_result_limit (some opts) all_tenants
          backend).1.1 = raw.map DashboardServer.mk) := by
  have hp2 : (server_list_opts tenant_id page_size (some opts) all_tenants).2 = true := by
    rw [server_list_opts_paginate_true tenant_id page_size opts all_tenants hpag]
  refine ⟨?_, ?_, ?_⟩
  · by_cases hgt : page_size < raw.length
    · simp only [server_list, hraw, hp2, List.length_map, Bool.true_and]
      rw [if_pos (by simp [hgt])]
    · simp only [server_list, hraw, hp2, List.length_map, Bool.true_and]
      rw [if_neg (by simp [hgt]), if_pos (by simp [hcap])]
  · intro hgt
    simp only [server_list, hraw, hp2, List.length_map, Bool.true_and]
    rw [if_pos (by simp [hgt])]
  · intro hle
    simp only [server_list, hraw, hp2, List.length_map, Bool.true_and]
    rw [if_neg (by simp; omega), if_pos (by simp [hcap])]

/-- Witness for C6 (amended): page size 2, cap 3, three rows returned:
flag true and the sentinel row trimmed (count exceeds the page size). -/
theorem server_list_cap_signals_more_witness :
    dictGet [("paginate", OptVal.bool true)] "paginate" = some (OptVal.bool true) ∧
    ([(⟨"x", "w1"⟩ : NServer), ⟨"y", "w2"⟩, ⟨"z", "w3"⟩].length = 3) ∧
    ((server_list "t-2" 2 3 (some [("paginate", OptVal.bool true)]) false
        (fun _ => [⟨"x", "w1"⟩, ⟨"y", "w2"⟩, ⟨"z", "w3"⟩])).1.2 = true) :=
  ⟨by decide, by decide,
    (server_list_cap_signals_more "t-2" 2 3 [("paginate", OptVal.bool true)] false
      (fun _ => [⟨"x", "w1"⟩, ⟨"y", "w2"⟩, ⟨"z", "w3"⟩])
      [⟨"x", "w1"⟩, ⟨"y", "w2"⟩, ⟨"z", "w3"⟩] (by decide) rfl rfl).1⟩

/-! ## C9 -/

/-- Setting the tenant key (either `all_tenants` or `project_id`) does not
affect lookups of other keys. -/
lemma dictGet_tenant_key_other (d : SearchOpts) (b : Bool) (x y : OptVal) (k : String)
    (h1 : k ≠ "all_tenants") (h2 : k ≠ "project_id") :
    dictGet (if b then dictInsert d "all_tenants" x else dictInsert d "project_id" y) k =
      dictGet d k := by
  cases b
  · simp only [Bool.false_eq_true, if_false]
    exact dictGet_insert_of_ne d "project_id" k y h2
  · simp only [if_true]
    exact dictGet_insert_of_ne d "all_tenants" k x h1

/-- C9: `server_list` rewrites the caller's `search_opts` dictionary: the
`paginate` key is removed, `limit` is inserted when the popped value was
truthy, `all_tenants` or `project_id` is inserted depending on the
arguments, and (when `paginate` was present) the dictionary observable
after the call differs from the one supplied. -/
theorem server_list_mutates_search_opts (tenant_id : String)
    (page_size api_result_limit : Nat) (opts : SearchOpts) (all_tenants : Bool)
    (backend : SearchOpts → List NServer) :
    (all_tenants = true →
      dictGet (server_list tenant_id page_size api_result_limit (some opts) all_tenants
          backend).2 "all_tenants" = some (OptVal.bool true)) ∧
    (all_tenants = false →
      dictGet (server_list tenant_id page_size api_result_limit (some opts) all_tenants
          backend).2 "project_id" = some (OptVal.str tenant_id)) ∧
    (∀ v, dictGet opts "paginate" = some v →
      dictGet (server_list tenant_id page_size api_result_limit (some opts) all_tenants
          backend).2 "paginate" = none ∧
      (v.truthy = true →
        dictGet (server_list tenant_id page_size api_result_limit (some opts) all_tenants
            backend).2 "limit" = some (OptVal.nat (page_size + 1))) ∧
      (server_list tenant_id page_size api_result_limit (some opts) all_tenants
          backend).2 ≠ opts) := by
  rw [server_list_snd]
  rcases hp : dictGet opts "paginate" with _ | v
  · have hopts : (server_list_opts tenant_id page_size (some opts) all_tenants).1 =
        (if all_tenants then dictInsert opts "all_tenants" (OptVal.bool true)
         else dictInsert opts "project_id" (OptVal.str tenant_id)) := by
      simp [server_list_opts, hp]
    rw [hopts]
    refine ⟨?_, ?_, ?_⟩
    · intro hat
      rw [hat, if_pos rfl]
      exact dictGet_insert_self _ _ _
    · intro hat
      rw [hat]
      simp only [Bool.false_eq_true, if_false]
      exact dictGet_insert_self _ _ _
    · intro v hv
      cases hv
  · have hbase : ∃ base,
        (server_list_opts tenant_id page_size (some opts) all_tenants).1 =
          (if all_tenants then dictInsert base "all_tenants" (OptVal.bool true)
           else dictInsert base "project_id" (OptVal.str tenant_id)) ∧
        dictGet base "paginate" = none ∧
        (v.truthy = true → dictGet base "limit" = some (OptVal.nat (page_size + 1))) := by
      by_cases ht : v.truthy = true
      · refine ⟨dictInsert (dictErase opts "paginate") "limit"
          (OptVal.nat (page_size + 1)), ?_, ?_, ?_⟩
        · simp [server_list_opts, hp, ht]
        · rw [dictGet_insert_of_ne _ _ _ _ (by decide), dictGet_erase_self]
        · intro _
          exact dictGet_insert_self _ _ _
      · refine ⟨dictErase opts "paginate", ?_, ?_, ?_⟩
        · simp [server_list_opts, hp, ht]
        · exact dictGet_erase_self _ _
        · intro h
          exact absurd h ht
    rcases hbase with ⟨base, heq, hpagnone, hlimit⟩
    rw [heq]
    have hnone : dictGet
        (if all_tenants then dictInsert base "all_tenants" (OptVal.bool true)
         else dictInsert base "project_id" (OptVal.str tenant_id)) "paginate" = none := by
      rw [dictGet_tenant_key_other _ _ _ _ _ (by decide) (by decide)]
      exact hpagnone
    refine ⟨?_, ?_, ?_⟩
    · intro hat
      rw [hat, if_pos rfl]
      exact dictGet_insert_self _ _ _
    · intro hat
      rw [hat]
      simp only [Bool.false_eq_true, if_false]
      exact dictGet_insert_self _ _ _
    · intro v' hv'
      refine ⟨hnone, ?_, ?_⟩
      · intro ht'
        have hvv : v' = v := (Option.some.inj hv').symm
        rw [dictGet_tenant_key_other _ _ _ _ _ (by decide) (by decide)]
        exact hlimit (hvv ▸ ht')
      · intro hcontra
        rw [hcontra, hp] at hnone
        cases hnone

/-- Witness for C9: a concrete `search_opts` with a truthy `paginate` key:
after the call the `paginate` key is gone, `limit` and `project_id` are
present, and the dictionary differs from the supplied one. -/
theorem server_list_mutates_search_opts_witness :
    (false = false →
      dictGet (server_list "t-9" 20 1000
          (some [("paginate", OptVal.bool true), ("status", OptVal.str "ACTIVE")]) false
          (fun _ => [])).2 "project_id" = some (OptVal.str "t-9")) ∧
    (dictGet [("paginate", OptVal.bool true), ("status", OptVal.str "ACTIVE")] "paginate" =
      some (OptVal.bool true)) ∧
    (dictGet (server_list "t-9" 20 1000
        (some [("paginate", OptVal.bool true), ("status", OptVal.str "ACTIVE")]) false
        (fun _ => [])).2 "paginate" = none ∧
      ((OptVal.bool true).truthy = true →
        dictGet (server_list "t-9" 20 1000
            (some [("paginate", OptVal.bool true), ("status", OptVal.str "ACTIVE")]) false
            (fun _ => [])).2 "limit" = some (OptVal.nat 21)) ∧
      (server_list "t-9" 20 1000
          (some [("paginate", OptVal.bool true), ("status", OptVal.str "ACTIVE")]) false
          (fun _ => [])).2 ≠
        [("paginate", OptVal.bool true), ("status", OptVal.str "ACTIVE")]) :=
  ⟨(server_list_mutates_search_opts "t-9" 20 1000
      [("paginate", OptVal.bool true), ("status", OptVal.str "ACTIVE")] false
      (fun _ => [])).2.1,
   by decide,
   (server_list_mutates_search_opts "t-9" 20 1000
      [("paginate", OptVal.bool true), ("status", OptVal.str "ACTIVE")] false
      (fun _ => [])).2.2 (OptVal.bool true) (by decide)⟩

/-! ## C7 -/

/-- The last error code recorded by the evacuation loops: the code of the
last failing server, if any (each failure overwrites `err_code`). -/
def evac_last_code (hypervisors : List HypervisorDict)
    (ev : String → Except ClientErr Unit) : Option Nat :=
  ((evac_failed hypervisors ev).map (evacErrCode ev)).foldl (fun _ c => some c) none

/-- The inner server loop appends the failure messages of exactly the
failing servers and records the last failing code. -/
lemma evac_server_loop_spec (ev : String → Except ClientErr Unit)
    (ss : List ServerInfo) (response : List String) (err_code : Option Nat) :
    evac_server_loop ev ss response err_code =
      (response ++ (ss.filter (evacFails ev)).map evac_failure_message,
       ((ss.filter (evacFails ev)).map (evacErrCode ev)).foldl (fun _ c => some c)
         err_code) := by
  induction ss generalizing response err_code with
  | nil => simp [evac_server_loop]
  | cons s rest ih =>
    cases hev : ev s.uuid with
    | ok u =>
      have hf : evacFails ev s = false := by simp [evacFails, hev]
      cases u
      simp only [evac_server_loop, hev, List.filter_cons, hf, Bool.false_eq_true,
        if_false]
      exact ih response err_code
    | error e =>
      have hf : evacFails ev s = true := by simp [evacFails, hev]
      have hc : evacErrCode ev s = e.code := by simp [evacErrCode, hev]
      simp only [evac_server_loop, hev]
      rw [ih (response ++ [evac_failure_message s]) (some e.code)]
      simp [List.filter_cons, hf, hc]

/-- The outer hypervisor loop accumulates, across all hypervisors, the
failure messages of exactly the failing servers and the last failing
code. -/
lemma evac_host_loop_spec (ev : String → Except ClientErr Unit)
    (hs : List HypervisorDict) (response : List String) (err_code : Option Nat) :
    evac_host_loop ev hs response err_code =
      (response ++ (evac_failed hs ev).map evac_failure_message,
       ((evac_failed hs ev).map (evacErrCode ev)).foldl (fun _ c => some c)
         err_code) := by
  induction hs generalizing response err_code with
  | nil => simp [evac_host_loop, evac_failed, allHyperServers]
  | cons h rest ih =>
    rw [evac_host_loop, evac_server_loop_spec, ih]
    have hsplit : evac_failed (h :: rest) ev =
        (Hypervisor.servers ⟨h⟩).filter (evacFails ev) ++ evac_failed rest ev := by
      simp [evac_failed, allHyperServers, List.filter_append]
    rw [hsplit]
    simp [List.foldl_append, List.append_assoc]

/-- `evacuate_host`, characterized: the result depends on the last
failure's code and lists every failing server. -/
lemma evacuate_host_eq (hypervisors : List HypervisorDict)
    (ev : String → Except ClientErr Unit) :
    evacuate_host hypervisors ev =
      match evac_last_code hypervisors ev with
      | some c =>
        if c ≠ 0 then
          Except.error ⟨c, "Failed to evacuate instances: " ++
            String.intercalate ", "
              ((evac_failed hypervisors ev).map evac_failure_message)⟩
        else Except.ok true
      | none => Except.ok true := by
  rw [evacuate_host, evac_host_loop_spec]
  simp only [List.nil_append]
  rfl

/-- C7: `evacuate_host` keeps attempting every server on every matching
hypervisor: the failure list covers all failing servers across the whole
hypervisor list.  When no evacuation fails it returns `True`; any raised
error carries the message listing the name/identifier pair of every
failing server; and on failures (with a truthy last error code, as all
novaclient codes are) exactly one error is raised, at the end. -/
theorem evacuate_host_accumulates (hypervisors : List HypervisorDict)
    (ev : String → Except ClientErr Unit) :
    (evac_failed hypervisors ev = [] → evacuate_host hypervisors ev = Except.ok true) ∧
    (∀ e, evacuate_host hypervisors ev = Except.error e →
      e.message = "Failed to evacuate instances: " ++
        String.intercalate ", " ((evac_failed hypervisors ev).map evac_failure_message)) ∧
    (∀ c, evac_last_code hypervisors ev = some c →
      c ≠ 0 →
      evacuate_host hypervisors ev = Except.error ⟨c,
        "Failed to evacuate instances: " ++
          String.intercalate ", " ((evac_failed hypervisors ev).map evac_failure_message)⟩) := by
  have hres := evacuate_host_eq hypervisors ev
  refine ⟨?_, ?_, ?_⟩
  · intro hempty
    have hlc : evac_last_code hypervisors ev = none := by
      simp [evac_last_code, hempty]
    rw [hres, hlc]
  · intro e he
    rw [hres] at he
    rcases hcase : evac_last_code hypervisors ev with _ | c
    · rw [hcase] at he
      exact Except.noConfusion he
    · rw [hcase] at he
      by_cases hc : c ≠ 0
      · have he2 : (if c ≠ 0 then
            Except.error (⟨c, "Failed to evacuate instances: " ++
              String.intercalate ", "
                ((evac_failed hypervisors ev).map evac_failure_message)⟩ : ClientErr)
          else Except.ok true) = Except.error e := he
        rw [if_pos hc] at he2
        have := Except.error.inj he2
        rw [← this]
      · have he2 : (if c ≠ 0 then
            Except.error (⟨c, "Failed to evacuate instances: " ++
              String.intercalate ", "
                ((evac_failed hypervisors ev).map evac_failure_message)⟩ : ClientErr)
          else Except.ok true) = Except.error e := he
        rw [if_neg hc] at he2
        exact Except.noConfusion he2
  · intro c hc hcz
    rw [hres, hc]
    show (if c ≠ 0 then
        Except.error (⟨c, "Failed to evacuate instances: " ++
          String.intercalate ", "
            ((evac_failed hypervisors ev).map evac_failure_message)⟩ : ClientErr)
      else Except.ok true) = _
    rw [if_pos hcz]

/-- Witness for C7: three hypervisors (one without a `servers` attribute);
the evacuations of `u1` and `u3` fail with code 500: one error is raised
listing exactly those two servers. -/
theorem evacuate_host_accumulates_witness :
    (evac_last_code
        [⟨some [⟨"vm1", "u1"⟩]⟩, ⟨none⟩, ⟨some [⟨"vm2", "u2"⟩, ⟨"vm3", "u3"⟩]⟩]
        (fun u => if u == "u1" || u == "u3" then Except.error ⟨500, "err"⟩
          else Except.ok ()) = some 500) ∧
    ((500 : Nat) ≠ 0) ∧
    (evacuate_host
        [⟨some [⟨"vm1", "u1"⟩]⟩, ⟨none⟩, ⟨some [⟨"vm2", "u2"⟩, ⟨"vm3", "u3"⟩]⟩]
        (fun u => if u == "u1" || u == "u3" then Except.error ⟨500, "err"⟩
          else Except.ok ()) =
      Except.error ⟨500,
        "Failed to evacuate instances: " ++
          String.intercalate ", "
            ((evac_failed
              [⟨some [⟨"vm1", "u1"⟩]⟩, ⟨none⟩, ⟨some [⟨"vm2", "u2"⟩, ⟨"vm3", "u3"⟩]⟩]
              (fun u => if u == "u1" || u == "u3" then Except.error ⟨500, "err"⟩
                else Except.ok ())).map evac_failure_message)⟩) :=
  ⟨by decide, by decide,
    (evacuate_host_accumulates
      [⟨some [⟨"vm1", "u1"⟩]⟩, ⟨none⟩, ⟨some [⟨"vm2", "u2"⟩, ⟨"vm3", "u3"⟩]⟩]
      (fun u => if u == "u1" || u == "u3" then Except.error ⟨500, "err"⟩
        else Except.ok ())).2.2 500 (by decide) (by decide)⟩

end NovaApi
